import Mathlib

/-!
Shallow embedding of the out-of-process audio playback controller
`trackPlayer` (LaserTag2020/src/dataOut/trackPlayer.{h,cpp}).

The component drives an external `afplay` child process.  Interactions with
the operating system are modelled explicitly:

* signals sent to processes, the spawn command and the recording of a
  discovered process id are emitted as an event trace (`Ev`);
* the data the OS hands back — the clock value `ofGetElapsedTimef()`, the
  `pgrep -n afplay` discovery result, and whether `waitpid(..., WNOHANG)`
  reported the recorded process as exited — are inputs (`SpawnEnv`,
  `PollEnv`).

Times and the volume scale passed to `afplay` are modelled as rationals
(the C++ uses `float` only as a clock/scale carrier; no floating-point
behaviour is exercised).  The directory listing (`ofDirectory`, an
openFrameworks library class not part of this repository) is modelled by
its documented behaviour: `allowExt` accumulates an extension allow-list,
`listDir` keeps exactly the files whose extension is allowed, `sort`
orders entries alphabetically by name.
-/

namespace LaserTag

/-- Boolean lexicographic order on character lists, comparing code points;
models the alphabetical order `ofDirectory::sort` uses on entry names. -/
def lexLe : List Char → List Char → Bool
  | [], _ => true
  | _ :: _, [] => false
  | a :: as, b :: bs =>
    if a.toNat < b.toNat then true
    else if b.toNat < a.toNat then false
    else lexLe as bs

/-- Name order on strings (lexicographic on the underlying characters). -/
def nameLe (a b : String) : Bool := lexLe a.data b.data

/-- Modelled from the documented behaviour of `ofDirectory::sort` (library
code, not in this repository): sort the entries alphabetically by name. -/
def sortByName (files : List String) : List String :=
  List.insertionSort (fun a b => nameLe a b = true) files

/-- File extension: the characters after the last dot, `""` when the name
has no dot.  Models the extension test of `ofDirectory::listDir` under the
allow-list installed by `ofDirectory::allowExt`. -/
def extOf (name : String) : String :=
  let rev := name.data.reverse
  if rev.contains '.' then ⟨(rev.takeWhile (fun c => c ≠ '.')).reverse⟩ else ""

/-- Modelled from the documented behaviour of `ofDirectory::listDir` with an
allow-list: keep exactly the files whose extension is in `allowed`. -/
def listDirFilter (allowed : List String) (files : List String) : List String :=
  files.filter (fun f => allowed.contains (extOf f))

/-- Observable OS-level actions of the controller, in program order. -/
inductive Ev where
  /-- `kill(p, SIGTERM)` — graceful stop (trackPlayer.cpp:26). -/
  | sigterm (p : ℤ)
  /-- `kill(p, SIGKILL)` — force kill after the 50 ms grace sleep
  (trackPlayer.cpp:29). -/
  | sigkill (p : ℤ)
  /-- `waitpid(p, nullptr, WNOHANG)` — non-blocking zombie reap
  (trackPlayer.cpp:30). -/
  | reap (p : ℤ)
  /-- `system("afplay -v <vol> \"<path>\" &")` — background spawn of the
  external player (trackPlayer.cpp:43-46). -/
  | spawnCmd (vol : ℚ) (path : String)
  /-- The `pgrep`-discovered process id is stored into `audioProcessPid`
  (trackPlayer.cpp:53). -/
  | record (p : ℤ)
  /-- `kill(p, SIGSTOP)` — pause (trackPlayer.cpp:112). -/
  | sigstop (p : ℤ)
  /-- `kill(p, SIGCONT)` — resume (trackPlayer.cpp:120). -/
  | sigcont (p : ℤ)
deriving Repr, DecidableEq

/-- Protected state of `class trackPlayer` (trackPlayer.h:31-39).  `dlist`
and `allowedExts` model the `ofDirectory DLIST` member: its current entry
list (paths) and its accumulated extension allow-list.  The unused member
`updatePct` is omitted. -/
structure TrackPlayer where
  numTracks : ℤ
  whichTrack : ℤ
  targetPitch : ℚ
  currentPitch : ℚ
  currentVolume : ℤ
  isPaused : Bool
  playStartTime : ℚ
  audioProcessPid : ℤ
  dlist : List String
  allowedExts : List String
deriving Repr, DecidableEq

/-- OS inputs consumed by one `spawnAudioProcess` call: the clock value
`ofGetElapsedTimef()` and the `pgrep -n afplay` result (`none` when
`popen`/`fgets` produces no line, in which case `audioProcessPid` is left
as it was). -/
structure SpawnEnv where
  now : ℚ
  found : Option ℤ
deriving Repr, DecidableEq

/-- OS inputs consumed by one `getFinished` call: the clock value and
whether `waitpid(audioProcessPid, &status, WNOHANG)` returned
`audioProcessPid` (the process has exited). -/
structure PollEnv where
  now : ℚ
  exited : Bool
deriving Repr, DecidableEq

/-- `trackPlayer::trackPlayer()` (trackPlayer.cpp:9-16).  The constructor
does not initialise the pitch fields, so their garbage values are
parameters. -/
def initPlayer (tp cp : ℚ) : TrackPlayer :=
  { numTracks := 0
    whichTrack := -1
    targetPitch := tp
    currentPitch := cp
    currentVolume := 80
    isPaused := false
    playStartTime := 0
    audioProcessPid := 0
    dlist := []
    allowedExts := [] }

/-- `trackPlayer::killAudioProcess()` (trackPlayer.cpp:23-33): when a
positive process id is recorded, send SIGTERM, sleep 50 ms, send SIGKILL,
reap with WNOHANG, and zero the recorded id; otherwise do nothing. -/
def killAudioProcess (s : TrackPlayer) : TrackPlayer × List Ev :=
  if 0 < s.audioProcessPid then
    ({ s with audioProcessPid := 0 },
     [Ev.sigterm s.audioProcessPid, Ev.sigkill s.audioProcessPid,
      Ev.reap s.audioProcessPid])
  else (s, [])

/-- `trackPlayer::spawnAudioProcess(filepath)` (trackPlayer.cpp:36-59):
kill any existing playback, record the start time, launch
`afplay -v (currentVolume/100) "<filepath>" &`, then try to discover the
new process id via `pgrep -n afplay` and record it when found; finally
clear the paused flag. -/
def spawnAudioProcess (s : TrackPlayer) (filepath : String) (env : SpawnEnv) :
    TrackPlayer × List Ev :=
  let k := killAudioProcess s
  let s2 := { k.1 with playStartTime := env.now }
  let vol : ℚ := (s2.currentVolume : ℚ) / 100
  let rec2 : TrackPlayer × List Ev :=
    match env.found with
    | some p => ({ s2 with audioProcessPid := p }, [Ev.record p])
    | none => (s2, [])
  ({ rec2.1 with isPaused := false },
   k.2 ++ Ev.spawnCmd vol filepath :: rec2.2)

/-- `trackPlayer::loadTracks(directoryPath)` (trackPlayer.cpp:62-74):
install the four allowed extensions (accumulating, as `allowExt` does),
list the directory keeping only allowed files, sort by name, and return
the count.  `files` is the directory content, in arbitrary OS order. -/
def loadTracks (s : TrackPlayer) (files : List String) : ℤ × TrackPlayer :=
  let exts := s.allowedExts ++ ["mp3", "wav", "aiff", "m4a"]
  let entries := sortByName (listDirFilter exts files)
  let n : ℤ := entries.length
  (n, { s with allowedExts := exts, dlist := entries, numTracks := n })

/-- `ofDirectory::getPath(i)`: the i-th entry of the listing, `""` out of
range (the C++ only calls it with a validated index). -/
def getPath (s : TrackPlayer) (i : ℤ) : String :=
  if 0 ≤ i then s.dlist.getD i.toNat "" else ""

/-- `trackPlayer::playTrack(_whichTrack)` (trackPlayer.cpp:77-91): reject
an out-of-range index with no side effect; otherwise select the track,
reset the pitch state to identity, and spawn the player on its path. -/
def playTrack (s : TrackPlayer) (i : ℤ) (env : SpawnEnv) :
    Bool × TrackPlayer × List Ev :=
  if s.numTracks = 0 ∨ s.numTracks ≤ i ∨ i < 0 then (false, s, [])
  else
    let s1 := { s with whichTrack := i, targetPitch := 1, currentPitch := 1 }
    let r := spawnAudioProcess s1 (getPath s1 i) env
    (true, r.1, r.2)

/-- `trackPlayer::pause()` (trackPlayer.cpp:110-115): SIGSTOP the process
and set the paused flag, only when a positive id is recorded and not
already paused. -/
def pause (s : TrackPlayer) : TrackPlayer × List Ev :=
  if 0 < s.audioProcessPid ∧ s.isPaused = false then
    ({ s with isPaused := true }, [Ev.sigstop s.audioProcessPid])
  else (s, [])

/-- `trackPlayer::unPause()` (trackPlayer.cpp:118-123): SIGCONT the
process and clear the paused flag, only when a positive id is recorded
and currently paused. -/
def unPause (s : TrackPlayer) : TrackPlayer × List Ev :=
  if 0 < s.audioProcessPid ∧ s.isPaused = true then
    ({ s with isPaused := false }, [Ev.sigcont s.audioProcessPid])
  else (s, [])

/-- `trackPlayer::getFinished()` (trackPlayer.cpp:126-144): inside the
1-second startup grace window report not-finished; otherwise report
finished when no positive id is recorded; otherwise poll `waitpid` with
WNOHANG — on exit, clear the id and report finished, else not. -/
def getFinished (s : TrackPlayer) (env : PollEnv) : Bool × TrackPlayer :=
  if 0 < s.playStartTime ∧ env.now - s.playStartTime < 1 then (false, s)
  else if s.audioProcessPid ≤ 0 then (true, s)
  else if env.exited then (true, { s with audioProcessPid := 0 })
  else (false, s)

/-- `trackPlayer::nextTrack()` (trackPlayer.cpp:147-153): increment the
index, wrap to 0 at or past `numTracks`, play it, return the index. -/
def nextTrack (s : TrackPlayer) (env : SpawnEnv) : ℤ × TrackPlayer × List Ev :=
  let w0 := s.whichTrack + 1
  let w := if s.numTracks ≤ w0 then 0 else w0
  let r := playTrack { s with whichTrack := w } w env
  (r.2.1.whichTrack, r.2.1, r.2.2)

/-- `trackPlayer::prevTrack()` (trackPlayer.cpp:156-162): decrement the
index, wrap to `numTracks - 1` below 0, play it, return the index. -/
def prevTrack (s : TrackPlayer) (env : SpawnEnv) : ℤ × TrackPlayer × List Ev :=
  let w0 := s.whichTrack - 1
  let w := if w0 < 0 then s.numTracks - 1 else w0
  let r := playTrack { s with whichTrack := w } w env
  (r.2.1.whichTrack, r.2.1, r.2.2)

/-- The clamp `setVolume` applies to its argument (trackPlayer.cpp:166-168). -/
def clampVol (vol : ℤ) : ℤ :=
  let v1 := if 100 < vol then 100 else vol
  if v1 < 0 then 0 else v1

/-- `trackPlayer::setVolume(vol)` (trackPlayer.cpp:165-179): clamp to
[0,100]; when the clamped value differs from the stored one while a
positive process id is recorded and a track index is selected, store it
and restart the current track (afplay has no live volume control);
otherwise just store it. -/
def setVolume (s : TrackPlayer) (vol : ℤ) (env : SpawnEnv) :
    TrackPlayer × List Ev :=
  let newVol := clampVol vol
  if newVol ≠ s.currentVolume ∧ 0 < s.audioProcessPid ∧ 0 ≤ s.whichTrack then
    let s1 := { s with currentVolume := newVol }
    let r := playTrack s1 s1.whichTrack env
    (r.2.1, r.2.2)
  else ({ s with currentVolume := newVol }, [])

/-- `trackPlayer::stop()` (trackPlayer.cpp:200-202). -/
def stop (s : TrackPlayer) : TrackPlayer × List Ev :=
  killAudioProcess s

/-- One public operation together with the OS inputs its call consumed. -/
inductive Op where
  | loadTracks (files : List String)
  | playTrack (i : ℤ) (env : SpawnEnv)
  | nextTrack (env : SpawnEnv)
  | prevTrack (env : SpawnEnv)
  | setVolume (v : ℤ) (env : SpawnEnv)
  | pause
  | unPause
  | getFinished (env : PollEnv)
  | stop
deriving Repr, DecidableEq

/-- State transition of one public operation (results and traces dropped). -/
def applyOp (s : TrackPlayer) : Op → TrackPlayer
  | .loadTracks files => (loadTracks s files).2
  | .playTrack i env => (playTrack s i env).2.1
  | .nextTrack env => (nextTrack s env).2.1
  | .prevTrack env => (prevTrack s env).2.1
  | .setVolume v env => (setVolume s v env).1
  | .pause => (pause s).1
  | .unPause => (unPause s).1
  | .getFinished env => (getFinished s env).2
  | .stop => (stop s).1

/-- Run a sequence of public operations. -/
def run (s : TrackPlayer) (ops : List Op) : TrackPlayer :=
  ops.foldl applyOp s

end LaserTag

namespace LaserTag

/-- The events `killAudioProcess` emits for a recorded id `p`: the
termination sequence when `p` is positive, nothing otherwise. -/
def killEvs (p : ℤ) : List Ev :=
  if 0 < p then [Ev.sigterm p, Ev.sigkill p, Ev.reap p] else []

/-- The events the pid-discovery step of `spawnAudioProcess` emits. -/
def recordEvs (found : Option ℤ) : List Ev :=
  match found with
  | some p => [Ev.record p]
  | none => []

/-- The full event trace of one `spawnAudioProcess` call on a state whose
recorded id is `oldPid`: first the termination of the old session, then
the spawn command, then the recording of the discovered id (if any). -/
def spawnShape (oldPid : ℤ) (vol : ℚ) (path : String) (found : Option ℤ) :
    List Ev :=
  killEvs oldPid ++ Ev.spawnCmd vol path :: recordEvs found

/-- The recorded process id after `spawnAudioProcess`: the discovered id
when `pgrep` produced one, otherwise whatever `killAudioProcess` left. -/
def pidAfterSpawn (oldPid : ℤ) (found : Option ℤ) : ℤ :=
  found.getD (if 0 < oldPid then 0 else oldPid)

/-- The selection invariant of the spec: `whichTrack` is `-1` or a valid
index into the catalog. -/
def trackInv (s : TrackPlayer) : Prop :=
  s.whichTrack = -1 ∨ (0 ≤ s.whichTrack ∧ s.whichTrack < s.numTracks)

instance (s : TrackPlayer) : Decidable (trackInv s) := by
  unfold trackInv; infer_instance

/-- Side condition under which one operation preserves `trackInv`:
`nextTrack` must not run on an empty catalog, and `loadTracks` must not
return a count at or below the currently selected index. -/
def opSafe (s : TrackPlayer) : Op → Bool
  | .nextTrack _ => decide (0 < s.numTracks)
  | .loadTracks files => decide (s.whichTrack < (loadTracks s files).1)
  | _ => true

/-- All operations of the sequence run under their side condition. -/
def safeSeq (s : TrackPlayer) : List Op → Bool
  | [] => true
  | op :: rest => opSafe s op && safeSeq (applyOp s op) rest

/-- Whether an operation is a `setVolume` call. -/
def isSetVolumeOp : Op → Bool
  | .setVolume _ _ => true
  | _ => false

/-- Sample state: fresh player with two loaded tracks. -/
def sLoaded : TrackPlayer := (loadTracks (initPlayer 1 1) ["b.mp3", "a.wav"]).2

/-- Sample state: two tracks loaded, track 1 playing as process 7, started
at clock value 0. -/
def sPlaying : TrackPlayer := (playTrack sLoaded 1 ⟨0, some 7⟩).2.1

end LaserTag

namespace LaserTag

theorem lexLe_total : ∀ as bs, lexLe as bs = true ∨ lexLe bs as = true := by
  intro as
  induction as with
  | nil => intro bs; left; rfl
  | cons a as ih =>
    intro bs
    cases bs with
    | nil => right; rfl
    | cons b bs =>
      rcases Nat.lt_trichotomy a.toNat b.toNat with h | h | h
      · left; simp [lexLe, h]
      · rcases ih bs with h2 | h2
        · left; simp [lexLe, h, h2]
        · right; simp [lexLe, h.symm, h2]
      · right; simp [lexLe, h]

theorem lexLe_trans :
    ∀ as bs cs, lexLe as bs = true → lexLe bs cs = true → lexLe as cs = true := by
  intro as
  induction as with
  | nil => intro bs cs _ _; rfl
  | cons a as ih =>
    intro bs cs h1 h2
    cases bs with
    | nil => simp [lexLe] at h1
    | cons b bs =>
      cases cs with
      | nil => simp [lexLe] at h2
      | cons c cs =>
        simp only [lexLe] at h1 h2 ⊢
        by_cases hab : a.toNat < b.toNat
        · by_cases hbc : b.toNat < c.toNat
          · simp [Nat.lt_trans hab hbc]
          · by_cases hcb : c.toNat < b.toNat
            · simp [hbc, hcb] at h2
            · have hac : a.toNat < c.toNat := by omega
              simp [hac]
        · by_cases hba : b.toNat < a.toNat
          · simp [hab, hba] at h1
          · simp only [if_neg hab, if_neg hba] at h1
            by_cases hbc : b.toNat < c.toNat
            · have hac : a.toNat < c.toNat := by omega
              simp [hac]
            · by_cases hcb : c.toNat < b.toNat
              · simp [hbc, hcb] at h2
              · simp only [if_neg hbc, if_neg hcb] at h2
                have hac : ¬ a.toNat < c.toNat := by omega
                have hca : ¬ c.toNat < a.toNat := by omega
                simp only [if_neg hac, if_neg hca]
                exact ih bs cs h1 h2

instance : IsTotal String (fun a b => nameLe a b = true) :=
  ⟨fun a b => lexLe_total a.data b.data⟩

instance : IsTrans String (fun a b => nameLe a b = true) :=
  ⟨fun a b c => lexLe_trans a.data b.data c.data⟩

theorem sortByName_perm (files : List String) :
    List.Perm (sortByName files) files :=
  List.perm_insertionSort _ files

theorem sortByName_sorted (files : List String) :
    (sortByName files).Sorted (fun a b => nameLe a b = true) :=
  List.sorted_insertionSort _ files

end LaserTag

namespace LaserTag

theorem killAudioProcess_eq (s : TrackPlayer) :
    killAudioProcess s
      = ({ s with audioProcessPid := if 0 < s.audioProcessPid then 0 else s.audioProcessPid },
         killEvs s.audioProcessPid) := by
  by_cases hp : 0 < s.audioProcessPid <;> simp [killAudioProcess, killEvs, hp]

theorem spawnAudioProcess_eq (s : TrackPlayer) (path : String) (env : SpawnEnv) :
    spawnAudioProcess s path env
      = ({ s with playStartTime := env.now,
                  audioProcessPid := pidAfterSpawn s.audioProcessPid env.found,
                  isPaused := false },
         spawnShape s.audioProcessPid ((s.currentVolume : ℚ) / 100) path env.found) := by
  cases hf : env.found with
  | none =>
    by_cases hp : 0 < s.audioProcessPid <;>
      simp [spawnAudioProcess, killAudioProcess, spawnShape, killEvs, recordEvs,
        pidAfterSpawn, hp, hf]
  | some p =>
    by_cases hp : 0 < s.audioProcessPid <;>
      simp [spawnAudioProcess, killAudioProcess, spawnShape, killEvs, recordEvs,
        pidAfterSpawn, hp, hf]

theorem playTrack_valid (s : TrackPlayer) (i : ℤ) (env : SpawnEnv)
    (h0 : 0 ≤ i) (h1 : i < s.numTracks) :
    playTrack s i env
      = (true,
         { s with whichTrack := i, targetPitch := 1, currentPitch := 1,
                  playStartTime := env.now,
                  audioProcessPid := pidAfterSpawn s.audioProcessPid env.found,
                  isPaused := false },
         spawnShape s.audioProcessPid ((s.currentVolume : ℚ) / 100)
           (getPath s i) env.found) := by
  have hcond : ¬(s.numTracks = 0 ∨ s.numTracks ≤ i ∨ i < 0) := by omega
  simp only [playTrack, if_neg hcond, spawnAudioProcess_eq]
  simp [getPath]

theorem playTrack_notValid (s : TrackPlayer) (i : ℤ) (env : SpawnEnv)
    (h : i < 0 ∨ s.numTracks ≤ i) :
    playTrack s i env = (false, s, []) := by
  have hcond : s.numTracks = 0 ∨ s.numTracks ≤ i ∨ i < 0 := by omega
  simp [playTrack, hcond]

end LaserTag

namespace LaserTag

/-- Reachable-state well-formedness used for the selection invariant:
the track count is non-negative and the selection is `-1` or valid. -/
def StateOK (s : TrackPlayer) : Prop := 0 ≤ s.numTracks ∧ trackInv s

theorem trackInv_of_fields (s t : TrackPlayer)
    (hw : t.whichTrack = s.whichTrack) (hn : t.numTracks = s.numTracks)
    (h : trackInv s) : trackInv t := by
  unfold trackInv at h ⊢; omega

theorem applyOp_stateOK (s : TrackPlayer) (op : Op)
    (hs : StateOK s) (hop : opSafe s op = true) : StateOK (applyOp s op) := by
  obtain ⟨hn, hinv⟩ := hs
  unfold trackInv at hinv
  cases op with
  | loadTracks files =>
    simp only [opSafe, decide_eq_true_eq, loadTracks] at hop
    simp only [applyOp, loadTracks]
    refine ⟨by (try dsimp only); omega, ?_⟩
    simp only [trackInv]
    omega
  | playTrack i env =>
    simp only [applyOp]
    by_cases hv : 0 ≤ i ∧ i < s.numTracks
    · rw [playTrack_valid s i env hv.1 hv.2]
      exact ⟨by simpa using hn, by simp only [trackInv]; omega⟩
    · rw [playTrack_notValid s i env (by omega)]
      exact ⟨hn, by simp only [trackInv]; omega⟩
  | nextTrack env =>
    simp only [opSafe, decide_eq_true_eq] at hop
    simp only [applyOp, nextTrack]
    by_cases hw : s.numTracks ≤ s.whichTrack + 1
    · rw [if_pos hw, playTrack_valid _ 0 env (by omega) (by (try dsimp only); omega)]
      exact ⟨by simpa using hn, by simp only [trackInv]; omega⟩
    · rw [if_neg hw,
        playTrack_valid _ (s.whichTrack + 1) env (by omega) (by (try dsimp only); omega)]
      exact ⟨by simpa using hn, by simp only [trackInv]; omega⟩
  | prevTrack env =>
    simp only [applyOp, prevTrack]
    by_cases hw : s.whichTrack - 1 < 0
    · rw [if_pos hw]
      by_cases hz : s.numTracks - 1 < 0
      · rw [playTrack_notValid _ _ env (by (try dsimp only); omega)]
        exact ⟨by simpa using hn, by simp only [trackInv]; omega⟩
      · rw [playTrack_valid _ (s.numTracks - 1) env (by omega) (by (try dsimp only); omega)]
        exact ⟨by simpa using hn, by simp only [trackInv]; omega⟩
    · rw [if_neg hw,
        playTrack_valid _ (s.whichTrack - 1) env (by omega) (by (try dsimp only); omega)]
      exact ⟨by simpa using hn, by simp only [trackInv]; omega⟩
  | setVolume v env =>
    simp only [applyOp, setVolume]
    by_cases hc : clampVol v ≠ s.currentVolume ∧ 0 < s.audioProcessPid ∧
        0 ≤ s.whichTrack
    · rw [if_pos hc]
      by_cases hv : s.whichTrack < s.numTracks
      · rw [playTrack_valid _ _ env (by omega) (by (try dsimp only); omega)]
        exact ⟨by simpa using hn, by simp only [trackInv]; omega⟩
      · rw [playTrack_notValid _ _ env (by (try dsimp only); omega)]
        exact ⟨by simpa using hn, by simp only [trackInv]; omega⟩
    · rw [if_neg hc]
      exact ⟨by simpa using hn, by simp only [trackInv]; omega⟩
  | pause =>
    simp only [applyOp, pause]
    split_ifs <;> exact ⟨by simpa using hn, by simp only [trackInv]; omega⟩
  | unPause =>
    simp only [applyOp, unPause]
    split_ifs <;> exact ⟨by simpa using hn, by simp only [trackInv]; omega⟩
  | getFinished env =>
    simp only [applyOp, getFinished]
    split_ifs <;> exact ⟨by simpa using hn, by simp only [trackInv]; omega⟩
  | stop =>
    simp only [applyOp, stop, killAudioProcess_eq]
    exact ⟨by simpa using hn, by simp only [trackInv]; omega⟩

theorem run_stateOK (ops : List Op) :
    ∀ s : TrackPlayer, StateOK s → safeSeq s ops = true → StateOK (run s ops) := by
  induction ops with
  | nil => intro s hs _; simpa [run] using hs
  | cons op rest ih =>
    intro s hs hsafe
    simp only [safeSeq, Bool.and_eq_true] at hsafe
    have h1 : run s (op :: rest) = run (applyOp s op) rest := by
      simp [run]
    rw [h1]
    exact ih _ (applyOp_stateOK s op hs hsafe.1) hsafe.2

end LaserTag

namespace LaserTag

/-- C1 (counterexample): the invariant as claimed is violated by calling
`nextTrack` on a freshly constructed player with an empty catalog: the
index becomes 0, which is neither `-1` nor inside `[0, numTracks) = ∅`
(trackPlayer.cpp:148-149 wraps to 0, and `playTrack` rejects without
restoring the index). -/
theorem trackInv_fails_on_empty_nextTrack :
    ¬ trackInv (run (initPlayer 1 1) [Op.nextTrack ⟨0, none⟩]) := by decide

/-- C1 (amended): starting from a freshly constructed player, `whichTrack`
is always `-1` or a valid index in `[0, numTracks)` for every sequence of
public operations in which `nextTrack` is never called while the catalog
is empty and `loadTracks` never returns a count at or below the currently
selected index. -/
theorem trackInv_holds_on_safe_sequences (tp cp : ℚ) (ops : List Op)
    (h : safeSeq (initPlayer tp cp) ops = true) :
    trackInv (run (initPlayer tp cp) ops) := by
  refine (run_stateOK ops (initPlayer tp cp) ⟨?_, ?_⟩ h).2
  · simp [initPlayer]
  · simp [trackInv, initPlayer]

/-- C1 witness: a concrete safe sequence — load two tracks, play track 1,
advance (wrapping to 0), retreat (wrapping back to 1) — keeps the
invariant. -/
theorem trackInv_holds_on_safe_sequences_witness :
    safeSeq (initPlayer 1 1)
        [Op.loadTracks ["b.mp3", "a.wav"], Op.playTrack 1 ⟨0, none⟩,
         Op.nextTrack ⟨0, some 5⟩, Op.prevTrack ⟨0, some 6⟩] = true
      ∧ trackInv (run (initPlayer 1 1)
          [Op.loadTracks ["b.mp3", "a.wav"], Op.playTrack 1 ⟨0, none⟩,
           Op.nextTrack ⟨0, some 5⟩, Op.prevTrack ⟨0, some 6⟩]) :=
  ⟨by decide,
   trackInv_holds_on_safe_sequences 1 1
     [Op.loadTracks ["b.mp3", "a.wav"], Op.playTrack 1 ⟨0, none⟩,
      Op.nextTrack ⟨0, some 5⟩, Op.prevTrack ⟨0, some 6⟩] (by decide)⟩

/-- C4: `playTrack` with an index outside `[0, numTracks)` — which is
every index when the catalog is empty — returns `false`, leaves the whole
state unchanged, and performs no OS action. -/
theorem playTrack_out_of_range_noop (s : TrackPlayer) (i : ℤ) (env : SpawnEnv)
    (h : i < 0 ∨ s.numTracks ≤ i) :
    playTrack s i env = (false, s, []) :=
  playTrack_notValid s i env h

/-- C4 witness: playing index 0 on the fresh empty catalog fails without
any state change or OS action. -/
theorem playTrack_out_of_range_noop_witness :
    playTrack (initPlayer 1 1) 0 ⟨0, some 9⟩ = (false, initPlayer 1 1, []) :=
  playTrack_out_of_range_noop (initPlayer 1 1) 0 ⟨0, some 9⟩ (by decide)

end LaserTag

namespace LaserTag

theorem nextTrack_eq_valid (s : TrackPlayer) (env : SpawnEnv)
    (h0 : 0 ≤ s.whichTrack) (h1 : s.whichTrack < s.numTracks) :
    nextTrack s env
      = (if s.whichTrack = s.numTracks - 1 then 0 else s.whichTrack + 1,
         { s with whichTrack := if s.whichTrack = s.numTracks - 1 then 0
                    else s.whichTrack + 1,
                  targetPitch := 1, currentPitch := 1,
                  playStartTime := env.now,
                  audioProcessPid := pidAfterSpawn s.audioProcessPid env.found,
                  isPaused := false },
         spawnShape s.audioProcessPid ((s.currentVolume : ℚ) / 100)
           (getPath s (if s.whichTrack = s.numTracks - 1 then 0
              else s.whichTrack + 1)) env.found) := by
  by_cases hlast : s.whichTrack = s.numTracks - 1
  · have hc : s.numTracks ≤ s.whichTrack + 1 := by omega
    simp only [nextTrack, if_pos hc]
    rw [playTrack_valid _ 0 env (by omega) (by (try dsimp only); omega)]
    simp [getPath, hlast]
  · have hc : ¬ s.numTracks ≤ s.whichTrack + 1 := by omega
    simp only [nextTrack, if_neg hc]
    rw [playTrack_valid _ (s.whichTrack + 1) env (by omega)
      (by (try dsimp only); omega)]
    simp [getPath, hlast]

theorem prevTrack_eq_valid (s : TrackPlayer) (env : SpawnEnv)
    (h0 : 0 ≤ s.whichTrack) (h1 : s.whichTrack < s.numTracks) :
    prevTrack s env
      = (if s.whichTrack = 0 then s.numTracks - 1 else s.whichTrack - 1,
         { s with whichTrack := if s.whichTrack = 0 then s.numTracks - 1
                    else s.whichTrack - 1,
                  targetPitch := 1, currentPitch := 1,
                  playStartTime := env.now,
                  audioProcessPid := pidAfterSpawn s.audioProcessPid env.found,
                  isPaused := false },
         spawnShape s.audioProcessPid ((s.currentVolume : ℚ) / 100)
           (getPath s (if s.whichTrack = 0 then s.numTracks - 1
              else s.whichTrack - 1)) env.found) := by
  by_cases hz : s.whichTrack = 0
  · have hc : s.whichTrack - 1 < 0 := by omega
    simp only [prevTrack, if_pos hc]
    rw [playTrack_valid _ (s.numTracks - 1) env (by omega)
      (by (try dsimp only); omega)]
    simp [getPath, hz]
  · have hc : ¬ s.whichTrack - 1 < 0 := by omega
    simp only [prevTrack, if_neg hc]
    rw [playTrack_valid _ (s.whichTrack - 1) env (by omega)
      (by (try dsimp only); omega)]
    simp [getPath, hz]

/-- C5: with a nonempty catalog and a validly selected track, `nextTrack`
wraps the last index to 0 and otherwise advances by one, `prevTrack`
wraps index 0 to `numTracks - 1` and otherwise retreats by one; both
update `whichTrack` to the new index, return it, and start playback of
the new index (terminate-spawn-record trace on the new index's path). -/
theorem nextTrack_prevTrack_wraparound (s : TrackPlayer) (env : SpawnEnv)
    (h0 : 0 ≤ s.whichTrack) (h1 : s.whichTrack < s.numTracks) :
    (nextTrack s env).1
        = (if s.whichTrack = s.numTracks - 1 then 0 else s.whichTrack + 1)
      ∧ (nextTrack s env).2.1.whichTrack = (nextTrack s env).1
      ∧ (nextTrack s env).2.2
          = spawnShape s.audioProcessPid ((s.currentVolume : ℚ) / 100)
              (getPath s (nextTrack s env).1) env.found
      ∧ (prevTrack s env).1
          = (if s.whichTrack = 0 then s.numTracks - 1 else s.whichTrack - 1)
      ∧ (prevTrack s env).2.1.whichTrack = (prevTrack s env).1
      ∧ (prevTrack s env).2.2
          = spawnShape s.audioProcessPid ((s.currentVolume : ℚ) / 100)
              (getPath s (prevTrack s env).1) env.found := by
  rw [nextTrack_eq_valid s env h0 h1, prevTrack_eq_valid s env h0 h1]
  refine ⟨rfl, rfl, rfl, rfl, rfl, rfl⟩

/-- C5 witness: on the two-track catalog with track 1 playing, `nextTrack`
wraps to 0 and `prevTrack` from the playing state wraps from 1 to 0. -/
theorem nextTrack_prevTrack_wraparound_witness :
    (nextTrack sPlaying ⟨3, some 9⟩).1 = 0
      ∧ (nextTrack sPlaying ⟨3, some 9⟩).2.1.whichTrack = 0
      ∧ (nextTrack sPlaying ⟨3, some 9⟩).2.2
          = spawnShape 7 (((80 : ℤ) : ℚ) / 100) "a.wav" (some 9)
      ∧ (prevTrack sPlaying ⟨3, some 9⟩).1 = 0 := by
  have h := nextTrack_prevTrack_wraparound sPlaying ⟨3, some 9⟩
    (by decide) (by decide)
  refine ⟨?_, ?_, ?_, ?_⟩
  · rw [h.1]; decide
  · rw [h.2.1, h.1]; decide
  · rw [h.2.2.1, h.1]; rfl
  · rw [h.2.2.2.1]; decide

end LaserTag

namespace LaserTag

/-- C2: within 1 time unit of a recorded session start, `getFinished`
reports `false` and changes nothing, whatever the recorded id or the
`waitpid` outcome; outside that window it reports `true` when no process
id is recorded, and with a recorded id it reports `true` and clears the
id exactly when the non-blocking wait says the process exited, `false`
(unchanged state) otherwise. -/
theorem getFinished_spec (s : TrackPlayer) (env : PollEnv) :
    (0 < s.playStartTime → env.now - s.playStartTime < 1 →
        getFinished s env = (false, s))
      ∧ (¬(0 < s.playStartTime ∧ env.now - s.playStartTime < 1) →
          (s.audioProcessPid ≤ 0 → getFinished s env = (true, s))
            ∧ (0 < s.audioProcessPid →
                (env.exited = true →
                    getFinished s env = (true, { s with audioProcessPid := 0 }))
                  ∧ (env.exited = false → getFinished s env = (false, s)))) := by
  unfold getFinished
  refine ⟨fun h1 h2 => by rw [if_pos ⟨h1, h2⟩], fun hw => ?_⟩
  rw [if_neg hw]
  refine ⟨fun hp => by rw [if_pos hp], fun hp => ?_⟩
  have hp2 : ¬ s.audioProcessPid ≤ 0 := by omega
  rw [if_neg hp2]
  exact ⟨fun he => by rw [he, if_pos rfl], fun he => by rw [he]; simp⟩

/-- C2 witness: on the playing sample state (session start recorded at
clock 0, so every call is outside the grace window), `getFinished` with a
positive `waitpid` outcome reports finished and clears the recorded id,
and with a negative outcome reports not finished and changes nothing. -/
theorem getFinished_spec_witness :
    getFinished sPlaying ⟨5, true⟩ = (true, { sPlaying with audioProcessPid := 0 })
      ∧ getFinished sPlaying ⟨5, false⟩ = (false, sPlaying)
      ∧ getFinished (initPlayer 1 1) ⟨0, false⟩ = (true, initPlayer 1 1) := by
  refine ⟨((getFinished_spec sPlaying ⟨5, true⟩).2 (by decide)).2 (by decide)
      |>.1 rfl,
    ((getFinished_spec sPlaying ⟨5, false⟩).2 (by decide)).2 (by decide)
      |>.2 rfl,
    ((getFinished_spec (initPlayer 1 1) ⟨0, false⟩).2 (by simp [initPlayer])).1
      (by decide)⟩

/-- C7: on an active unpaused session, `pause` followed by `unPause`
restores the exact prior state — same `whichTrack`, same recorded process
id (the session is never terminated: the two calls emit only the
stop-execution and continue-execution signals), paused flag false
again. -/
theorem pause_unPause_roundtrip (s : TrackPlayer)
    (hp : 0 < s.audioProcessPid) (hq : s.isPaused = false) :
    (unPause (pause s).1).1 = s
      ∧ (pause s).1.audioProcessPid = s.audioProcessPid
      ∧ (pause s).1.whichTrack = s.whichTrack
      ∧ (pause s).2 = [Ev.sigstop s.audioProcessPid]
      ∧ (unPause (pause s).1).2 = [Ev.sigcont s.audioProcessPid] := by
  obtain ⟨nt, wt, tp2, cp2, cv, ip, pst, pid, dl, ae⟩ := s
  simp only at hp hq
  subst hq
  simp [pause, unPause, hp]

/-- C7 witness: the playing sample state is exactly restored by
`pause` then `unPause`, with only SIGSTOP and SIGCONT sent to process 7. -/
theorem pause_unPause_roundtrip_witness :
    (unPause (pause sPlaying).1).1 = sPlaying
      ∧ (pause sPlaying).2 = [Ev.sigstop 7]
      ∧ (unPause (pause sPlaying).1).2 = [Ev.sigcont 7] := by
  have h := pause_unPause_roundtrip sPlaying (by decide) (by decide)
  exact ⟨h.1, by rw [h.2.2.2.1]; decide, by rw [h.2.2.2.2]; decide⟩

/-- C8: with no recorded process id, `pause`, `unPause` and `stop` change
nothing and send no signal; and termination is idempotent — from any
state with a non-negative recorded id, one `stop` leaves the id zero and
a second `stop` changes nothing and sends nothing. -/
theorem idle_noops_and_stop_idempotent (s : TrackPlayer) :
    (s.audioProcessPid = 0 →
        pause s = (s, []) ∧ unPause s = (s, []) ∧ stop s = (s, []))
      ∧ (0 ≤ s.audioProcessPid →
          (stop s).1.audioProcessPid = 0
            ∧ stop (stop s).1 = ((stop s).1, [])) := by
  constructor
  · intro h0
    refine ⟨?_, ?_, ?_⟩
    · simp [pause, h0]
    · simp [unPause, h0]
    · simp [stop, killAudioProcess, h0]
  · intro hge
    rw [stop, killAudioProcess_eq]
    by_cases hp : 0 < s.audioProcessPid
    · simp [stop, killAudioProcess, hp]
    · have h0 : s.audioProcessPid = 0 := by omega
      simp [stop, killAudioProcess, hp, h0]

/-- C8 witness: on the fresh player (id 0) the three calls are no-ops,
and on the playing sample state (id 7) `stop` zeroes the id and a second
`stop` does nothing. -/
theorem idle_noops_and_stop_idempotent_witness :
    (pause (initPlayer 1 1) = (initPlayer 1 1, [])
        ∧ unPause (initPlayer 1 1) = (initPlayer 1 1, [])
        ∧ stop (initPlayer 1 1) = (initPlayer 1 1, []))
      ∧ ((stop sPlaying).1.audioProcessPid = 0
        ∧ stop (stop sPlaying).1 = ((stop sPlaying).1, [])) :=
  ⟨(idle_noops_and_stop_idempotent (initPlayer 1 1)).1 (by decide),
   (idle_noops_and_stop_idempotent sPlaying).2 (by decide)⟩

end LaserTag

namespace LaserTag

theorem setVolume_restart_eq (s : TrackPlayer) (v : ℤ) (env : SpawnEnv)
    (h1 : clampVol v ≠ s.currentVolume) (h2 : 0 < s.audioProcessPid)
    (h3 : 0 ≤ s.whichTrack) (h4 : s.whichTrack < s.numTracks) :
    setVolume s v env
      = ({ s with currentVolume := clampVol v,
                  targetPitch := 1, currentPitch := 1,
                  playStartTime := env.now,
                  audioProcessPid := pidAfterSpawn s.audioProcessPid env.found,
                  isPaused := false },
         spawnShape s.audioProcessPid ((clampVol v : ℚ) / 100)
           (getPath s s.whichTrack) env.found) := by
  have hc : clampVol v ≠ s.currentVolume ∧ 0 < s.audioProcessPid
      ∧ 0 ≤ s.whichTrack := ⟨h1, h2, h3⟩
  simp only [setVolume, if_pos hc]
  rw [playTrack_valid _ _ env (by omega) (by (try dsimp only); omega)]
  simp [getPath]

theorem setVolume_norestart_eq (s : TrackPlayer) (v : ℤ) (env : SpawnEnv)
    (h : ¬(clampVol v ≠ s.currentVolume ∧ 0 < s.audioProcessPid
        ∧ 0 ≤ s.whichTrack ∧ s.whichTrack < s.numTracks)) :
    setVolume s v env = ({ s with currentVolume := clampVol v }, []) := by
  by_cases hc : clampVol v ≠ s.currentVolume ∧ 0 < s.audioProcessPid
      ∧ 0 ≤ s.whichTrack
  · have hv : ¬ s.whichTrack < s.numTracks := by tauto
    simp only [setVolume, if_pos hc]
    rw [playTrack_notValid _ _ env (by (try dsimp only); omega)]
  · simp only [setVolume, if_neg hc]

/-- C3: whenever a new playback session is started — directly via
`spawnAudioProcess`, via `playTrack` on a valid index, via
`nextTrack`/`prevTrack` on a valid selection, or via a volume-change
restart — the previously recorded process id is terminated first
(`killAudioProcess` leaves the recorded id 0 before the spawn), and the
emitted trace is exactly: termination of the old id, then the spawn
command, then the recording of the newly discovered id; so a single owned
id exists at every point. -/
theorem new_session_terminates_old_first (s : TrackPlayer) (i v : ℤ)
    (env : SpawnEnv) (path : String) (hpid : 0 ≤ s.audioProcessPid) :
    (killAudioProcess s).1.audioProcessPid = 0
      ∧ (spawnAudioProcess s path env).2
          = killEvs s.audioProcessPid
              ++ Ev.spawnCmd ((s.currentVolume : ℚ) / 100) path
                :: recordEvs env.found
      ∧ (0 ≤ i → i < s.numTracks →
          (playTrack s i env).2.2
            = killEvs s.audioProcessPid
                ++ Ev.spawnCmd ((s.currentVolume : ℚ) / 100) (getPath s i)
                  :: recordEvs env.found)
      ∧ (0 ≤ s.whichTrack → s.whichTrack < s.numTracks →
          (nextTrack s env).2.2
              = killEvs s.audioProcessPid
                  ++ Ev.spawnCmd ((s.currentVolume : ℚ) / 100)
                      (getPath s (nextTrack s env).1) :: recordEvs env.found
            ∧ (prevTrack s env).2.2
                = killEvs s.audioProcessPid
                    ++ Ev.spawnCmd ((s.currentVolume : ℚ) / 100)
                        (getPath s (prevTrack s env).1) :: recordEvs env.found)
      ∧ (clampVol v ≠ s.currentVolume → 0 < s.audioProcessPid →
          0 ≤ s.whichTrack → s.whichTrack < s.numTracks →
          (setVolume s v env).2
            = killEvs s.audioProcessPid
                ++ Ev.spawnCmd ((clampVol v : ℚ) / 100) (getPath s s.whichTrack)
                  :: recordEvs env.found) := by
  refine ⟨?_, ?_, ?_, ?_, ?_⟩
  · rw [killAudioProcess_eq]
    by_cases hp : 0 < s.audioProcessPid
    · simp [hp]
    · simp [hp]; omega
  · rw [spawnAudioProcess_eq]; rfl
  · intro ha hb
    rw [playTrack_valid s i env ha hb]; rfl
  · intro ha hb
    rw [nextTrack_eq_valid s env ha hb, prevTrack_eq_valid s env ha hb]
    exact ⟨rfl, rfl⟩
  · intro h1 h2 h3 h4
    rw [setVolume_restart_eq s v env h1 h2 h3 h4]; rfl

/-- C3 witness: restarting playback (track 0) on the playing sample state
(old process 7) terminates 7, then spawns, then records the new id 9. -/
theorem new_session_terminates_old_first_witness :
    (killAudioProcess sPlaying).1.audioProcessPid = 0
      ∧ (playTrack sPlaying 0 ⟨3, some 9⟩).2.2
          = [Ev.sigterm 7, Ev.sigkill 7, Ev.reap 7,
             Ev.spawnCmd (((80 : ℤ) : ℚ) / 100) "a.wav", Ev.record 9] := by
  have h := new_session_terminates_old_first sPlaying 0 0 ⟨3, some 9⟩ "p"
    (by decide)
  refine ⟨h.1, ?_⟩
  rw [h.2.2.1 (by decide) (by decide)]
  rfl

/-- C6: `setVolume` stores the value clamped to [0,100] (150 ↦ 100,
-5 ↦ 0); it restarts playback exactly when the clamped value differs from
the stored volume while a positive process id is recorded and a valid
track is selected — replaying the same track at the new volume with
`currentTrackIndex` unchanged — and in every other case it only stores
the clamped value, leaving the session untouched (no OS action). -/
theorem setVolume_clamps_and_restarts (s : TrackPlayer) (v : ℤ)
    (env : SpawnEnv) :
    clampVol 150 = 100 ∧ clampVol (-5) = 0
      ∧ (0 ≤ clampVol v ∧ clampVol v ≤ 100)
      ∧ (setVolume s v env).1.currentVolume = clampVol v
      ∧ ((clampVol v ≠ s.currentVolume ∧ 0 < s.audioProcessPid
            ∧ 0 ≤ s.whichTrack ∧ s.whichTrack < s.numTracks) →
          ((setVolume s v env).1.whichTrack = s.whichTrack
            ∧ (setVolume s v env).2
                = spawnShape s.audioProcessPid ((clampVol v : ℚ) / 100)
                    (getPath s s.whichTrack) env.found))
      ∧ (¬(clampVol v ≠ s.currentVolume ∧ 0 < s.audioProcessPid
            ∧ 0 ≤ s.whichTrack ∧ s.whichTrack < s.numTracks) →
          setVolume s v env = ({ s with currentVolume := clampVol v }, [])) := by
  refine ⟨by decide, by decide, by simp only [clampVol]; split_ifs <;> omega, ?_, ?_, ?_⟩
  · by_cases hc : clampVol v ≠ s.currentVolume ∧ 0 < s.audioProcessPid
        ∧ 0 ≤ s.whichTrack ∧ s.whichTrack < s.numTracks
    · rw [setVolume_restart_eq s v env hc.1 hc.2.1 hc.2.2.1 hc.2.2.2]
    · rw [setVolume_norestart_eq s v env hc]
  · intro hc
    rw [setVolume_restart_eq s v env hc.1 hc.2.1 hc.2.2.1 hc.2.2.2]
    exact ⟨rfl, rfl⟩
  · intro hc
    exact setVolume_norestart_eq s v env hc

/-- C6 witness: on the playing sample state, `setVolume 50` restarts the
same track (index 1, path "b.mp3") at the new volume with the index
unchanged, and `setVolume 80` (unchanged value) stores the value and does
nothing else. -/
theorem setVolume_clamps_and_restarts_witness :
    (setVolume sPlaying 50 ⟨4, some 8⟩).1.whichTrack = 1
      ∧ (setVolume sPlaying 50 ⟨4, some 8⟩).2
          = spawnShape 7 (((50 : ℤ) : ℚ) / 100) "b.mp3" (some 8)
      ∧ setVolume sPlaying 80 ⟨4, some 8⟩
          = ({ sPlaying with currentVolume := 80 }, []) := by
  have h50 := setVolume_clamps_and_restarts sPlaying 50 ⟨4, some 8⟩
  have h80 := setVolume_clamps_and_restarts sPlaying 80 ⟨4, some 8⟩
  have hr := h50.2.2.2.2.1 (by decide)
  refine ⟨?_, ?_, ?_⟩
  · rw [hr.1]; decide
  · rw [hr.2]; rfl
  · exact h80.2.2.2.2.2 (by decide)

end LaserTag

namespace LaserTag

theorem listDirFilter_append_subset (exts base files : List String)
    (hx : ∀ e ∈ exts, e ∈ base) :
    listDirFilter (exts ++ base) files = listDirFilter base files := by
  unfold listDirFilter
  apply List.filter_congr
  intro f _
  by_cases h : extOf f ∈ base
  · simp [List.contains, List.elem_eq_mem, h]
  · have h2 : extOf f ∉ exts := fun hm => h (hx _ hm)
    simp [List.contains, List.elem_eq_mem, h, h2]

/-- C9: `loadTracks` keeps exactly the files whose extension is in
{mp3, wav, aiff, m4a}, sorts them by name, replaces any previous catalog
with that list (the result does not depend on the old entries), and
returns their count as the new `numTracks`; with no matching file it
returns 0 and leaves the catalog empty, signalling nothing. -/
theorem loadTracks_filters_sorts_counts (s : TrackPlayer) (files : List String)
    (hx : ∀ e ∈ s.allowedExts, e ∈ (["mp3", "wav", "aiff", "m4a"] : List String)) :
    (loadTracks s files).2.dlist
        = sortByName (listDirFilter ["mp3", "wav", "aiff", "m4a"] files)
      ∧ List.Perm (loadTracks s files).2.dlist
          (listDirFilter ["mp3", "wav", "aiff", "m4a"] files)
      ∧ ((loadTracks s files).2.dlist).Sorted (fun a b => nameLe a b = true)
      ∧ (loadTracks s files).1
          = ((listDirFilter ["mp3", "wav", "aiff", "m4a"] files).length : ℤ)
      ∧ (loadTracks s files).2.numTracks = (loadTracks s files).1
      ∧ (listDirFilter ["mp3", "wav", "aiff", "m4a"] files = [] →
          (loadTracks s files).1 = 0 ∧ (loadTracks s files).2.dlist = []) := by
  have hd : (loadTracks s files).2.dlist
      = sortByName (listDirFilter ["mp3", "wav", "aiff", "m4a"] files) := by
    simp only [loadTracks]
    rw [listDirFilter_append_subset s.allowedExts _ files hx]
  have hperm : List.Perm (loadTracks s files).2.dlist
      (listDirFilter ["mp3", "wav", "aiff", "m4a"] files) := by
    rw [hd]; exact sortByName_perm _
  have hcount : (loadTracks s files).1
      = ((listDirFilter ["mp3", "wav", "aiff", "m4a"] files).length : ℤ) := by
    have h1 : (loadTracks s files).1 = ((loadTracks s files).2.dlist.length : ℤ) := by
      simp only [loadTracks]
    rw [h1, hperm.length_eq]
  refine ⟨hd, hperm, ?_, hcount, by simp only [loadTracks], fun hemp => ?_⟩
  · rw [hd]; exact sortByName_sorted _
  · refine ⟨by rw [hcount, hemp]; rfl, by rw [hd, hemp]; rfl⟩

/-- C9 witness: a directory with two allowed files (out of order) and one
disallowed file loads exactly the allowed two, sorted, with count 2. -/
theorem loadTracks_filters_sorts_counts_witness :
    (loadTracks (initPlayer 1 1) ["b.mp3", "x.txt", "a.wav"]).2.dlist
        = ["a.wav", "b.mp3"]
      ∧ (loadTracks (initPlayer 1 1) ["b.mp3", "x.txt", "a.wav"]).1 = 2 := by
  have h := loadTracks_filters_sorts_counts (initPlayer 1 1)
    ["b.mp3", "x.txt", "a.wav"] (by decide)
  refine ⟨?_, ?_⟩
  · rw [h.1]; decide
  · rw [h.2.2.2.1]; decide

theorem playTrack_currentVolume (s : TrackPlayer) (i : ℤ) (env : SpawnEnv) :
    (playTrack s i env).2.1.currentVolume = s.currentVolume := by
  by_cases hv : 0 ≤ i ∧ i < s.numTracks
  · rw [playTrack_valid s i env hv.1 hv.2]
  · rw [playTrack_notValid s i env (by omega)]

theorem applyOp_currentVolume (s : TrackPlayer) (op : Op)
    (h : isSetVolumeOp op = false) :
    (applyOp s op).currentVolume = s.currentVolume := by
  cases op with
  | setVolume v env => simp [isSetVolumeOp] at h
  | loadTracks files => rfl
  | playTrack i env => exact playTrack_currentVolume s i env
  | nextTrack env =>
    simp only [applyOp, nextTrack]
    rw [playTrack_currentVolume]
  | prevTrack env =>
    simp only [applyOp, prevTrack]
    rw [playTrack_currentVolume]
  | pause => simp only [applyOp, pause]; split_ifs <;> rfl
  | unPause => simp only [applyOp, unPause]; split_ifs <;> rfl
  | getFinished env => simp only [applyOp, getFinished]; split_ifs <;> rfl
  | stop => simp only [applyOp, stop, killAudioProcess_eq]

theorem run_currentVolume (ops : List Op) :
    ∀ s : TrackPlayer, (∀ op ∈ ops, isSetVolumeOp op = false) →
      (run s ops).currentVolume = s.currentVolume := by
  induction ops with
  | nil => intro s _; rfl
  | cons op rest ih =>
    intro s h
    have h1 : run s (op :: rest) = run (applyOp s op) rest := by simp [run]
    have h2 : isSetVolumeOp op = false := h op (by simp)
    have h3 : ∀ o ∈ rest, isSetVolumeOp o = false := fun o ho => h o (by simp [ho])
    rw [h1, ih _ h3, applyOp_currentVolume s op h2]

/-- C10: a freshly constructed player has no catalog, no selection, no
session (id 0, start time 0), is not paused, and has volume 80;
`getFinished` before any playback reports finished; the volume stays 80
over any sequence of operations containing no `setVolume`, and any spawn
from a volume-80 state issues the player command at scale 80/100, which
is 0.8 on the 0.0-1.0 scale. -/
theorem fresh_player_defaults (tp cp : ℚ) :
    (initPlayer tp cp).numTracks = 0
      ∧ (initPlayer tp cp).whichTrack = -1
      ∧ (initPlayer tp cp).audioProcessPid = 0
      ∧ (initPlayer tp cp).playStartTime = 0
      ∧ (initPlayer tp cp).isPaused = false
      ∧ (initPlayer tp cp).currentVolume = 80
      ∧ (initPlayer tp cp).dlist = []
      ∧ (∀ env : PollEnv, (getFinished (initPlayer tp cp) env).1 = true)
      ∧ (∀ ops : List Op, (∀ op ∈ ops, isSetVolumeOp op = false) →
          (run (initPlayer tp cp) ops).currentVolume = 80)
      ∧ (∀ (s : TrackPlayer) (path : String) (env : SpawnEnv),
          s.currentVolume = 80 →
            (spawnAudioProcess s path env).2
              = spawnShape s.audioProcessPid (((80 : ℤ) : ℚ) / 100) path
                  env.found)
      ∧ ((80 : ℤ) : ℚ) / 100 = 4 / 5 := by
  refine ⟨rfl, rfl, rfl, rfl, rfl, rfl, rfl, ?_, ?_, ?_, by norm_num⟩
  · intro env
    simp [getFinished, initPlayer]
  · intro ops h
    rw [run_currentVolume ops (initPlayer tp cp) h]
    rfl
  · intro s path env hv
    rw [spawnAudioProcess_eq, hv]

/-- C10 witness: concrete fresh player — `getFinished` reports true before
any playback; after loading and playing a track with no `setVolume`, the
volume is still 80; the first spawn runs at 80/100. -/
theorem fresh_player_defaults_witness :
    (getFinished (initPlayer 1 1) ⟨9, true⟩).1 = true
      ∧ (run (initPlayer 1 1)
          [Op.loadTracks ["a.wav"], Op.playTrack 0 ⟨0, some 3⟩]).currentVolume
          = 80
      ∧ (spawnAudioProcess (initPlayer 1 1) "x.mp3" ⟨0, none⟩).2
          = spawnShape 0 (((80 : ℤ) : ℚ) / 100) "x.mp3" none := by
  have h := fresh_player_defaults 1 1
  exact ⟨h.2.2.2.2.2.2.2.1 ⟨9, true⟩,
    h.2.2.2.2.2.2.2.2.1 [Op.loadTracks ["a.wav"], Op.playTrack 0 ⟨0, some 3⟩]
      (by decide),
    h.2.2.2.2.2.2.2.2.2.1 (initPlayer 1 1) "x.mp3" ⟨0, none⟩ rfl⟩

end LaserTag
